import Mathlib

/-!
Shallow embedding of the sweetaura client-side session/cart core.

The Cart Store and Reconciliation Logic are translated from the
CartProvider (guest/authenticated cart with merge-on-login); the Session
Store from the AuthProvider whose auth-change handler is the single
source of truth (`src/contexts/AuthContext.tsx`).

JS numbers for prices are modelled as rationals, quantities as integers,
identifiers as strings.  The remote `cart_items` table is a list of rows;
the backend upsert with conflict target (user_id, product_id) updates the
matching row or appends.  Every operation additionally returns the list
of events it emits (network calls and toast notifications), so that
claims about which remote calls happen, and in which order, are statable.
Fallible remote calls take an explicit Bool outcome parameter (`true` =
the backend reported success).
-/

namespace SweetAura

/-- A row of the `products` table (only the fields the cart reads). -/
structure Product where
  id : String
  name : String
  price : ℚ
  image_url : Option String
deriving DecidableEq, Repr

/-- A row of the remote `cart_items` table. -/
structure CartRow where
  user_id : String
  product_id : String
  quantity : Int
deriving DecidableEq, Repr

/-- A client-side cart line (`CartItem` in the source: id is the product id). -/
structure CartItem where
  id : String
  name : String
  price : ℚ
  quantity : Int
  image_url : Option String
deriving DecidableEq, Repr

/-- The argument of `addItem`: a `CartItem` without its quantity
(`Omit<CartItem, "quantity">`). -/
structure ProductLite where
  id : String
  name : String
  price : ℚ
  image_url : Option String
deriving DecidableEq, Repr

abbrev DB := List CartRow

/-- Events emitted by the providers: remote calls and toasts. -/
inductive Ev where
  | upsertCall (rows : List CartRow)
  | deleteCall (uid pid : String)
  | deleteAllCall (uid : String)
  | updateCall (uid pid : String) (q : Int)
  | selectCall (uid : String)
  | signOutCall
  | toastSuccess (msg : String)
  | toastError (msg : String)
deriving DecidableEq, Repr

/-- Network (backend) calls, as opposed to local toast notifications. -/
def Ev.isNet : Ev → Bool
  | .toastSuccess _ => false
  | .toastError _ => false
  | _ => true

/-- Events that are a remote upsert. -/
def Ev.isUpsert : Ev → Bool
  | .upsertCall _ => true
  | _ => false

/-- Row matches the composite key (user_id, product_id). -/
def rowKeyIs (u p : String) (r : CartRow) : Bool :=
  r.user_id == u && r.product_id == p

/-- Backend upsert of a single row with conflict target (user_id, product_id):
update the quantity of the conflicting row, or insert the row. -/
def upsertRow (db : DB) (r : CartRow) : DB :=
  if db.any (rowKeyIs r.user_id r.product_id) then
    db.map (fun x => if rowKeyIs r.user_id r.product_id x then { x with quantity := r.quantity } else x)
  else
    db ++ [r]

/-- Backend batched upsert: each row of the batch is upserted in order. -/
def upsertRows (db : DB) (rs : List CartRow) : DB :=
  rs.foldl upsertRow db

/-- Backend `delete().match({user_id, product_id})`. -/
def deleteRow (db : DB) (u p : String) : DB :=
  db.filter (fun r => !(rowKeyIs u p r))

/-- Backend `update({quantity}).match({user_id, product_id})`. -/
def updateRow (db : DB) (u p : String) (q : Int) : DB :=
  db.map (fun r => if rowKeyIs u p r then { r with quantity := q } else r)

/-- Backend delete of every row of one user (`delete().eq` on user_id). -/
def deleteUser (db : DB) (u : String) : DB :=
  db.filter (fun r => !(r.user_id == u))

/-- Backend select of the rows of one user (`select().eq` on user_id). -/
def selectUser (db : DB) (u : String) : DB :=
  db.filter (fun r => r.user_id == u)

/-- The quantity stored in the durable cart for a given (user, product) key. -/
def dbLookup (db : DB) (u p : String) : Option Int :=
  (db.find? (rowKeyIs u p)).map (fun r => r.quantity)

/-- The `fetchCart` projection: select the rows of the user and join each
with its product (`select` with `products(*)`), building the client lines. -/
def fetchItems (ps : List Product) (db : DB) (uid : String) : List CartItem :=
  (selectUser db uid).filterMap (fun r =>
    (ps.find? (fun p => p.id == r.product_id)).map (fun p =>
      CartItem.mk r.product_id p.name p.price r.quantity p.image_url))

/-- Derived total: the reduce over items of price times quantity from 0. -/
def total (items : List CartItem) : ℚ :=
  items.foldl (fun sum item => sum + item.price * (item.quantity : ℚ)) 0

/-- State of the CartProvider together with the remote table it talks to. -/
structure CartState where
  user : Option String
  items : List CartItem
  db : DB
deriving DecidableEq, Repr

/-- Operation `fetchCart`: select the rows of the user with their products;
on error toast and leave `items` unchanged, otherwise set `items` to the
fetched lines.  The Bool argument is the backend outcome of the select. -/
def fetchCartRun (ok : Bool) (ps : List Product) (uid : String) (s : CartState) :
    CartState × List Ev :=
  if ok then
    ({ s with items := fetchItems ps s.db uid }, [Ev.selectCall uid])
  else
    (s, [Ev.selectCall uid, Ev.toastError "Could not fetch your cart."])

/-- Operation `addItem`.  Authenticated: upsert quantity (current quantity of that
product in `items`) + 1 with conflict target (user_id, product_id); on error
toast, otherwise toast success and re-fetch.  Guest: increment the existing
line or append a new line with quantity 1, purely in memory. -/
def addItem (okMut okFetch : Bool) (ps : List Product) (s : CartState) (p : ProductLite) :
    CartState × List Ev :=
  match s.user with
  | some uid =>
    let q : Int := (match s.items.find? (fun i => i.id == p.id) with
      | some i => i.quantity
      | none => 0) + 1
    let call := Ev.upsertCall [CartRow.mk uid p.id q]
    if okMut then
      let s2 := { s with db := upsertRow s.db (CartRow.mk uid p.id q) }
      let r := fetchCartRun okFetch ps uid s2
      (r.1, call :: Ev.toastSuccess "Added to cart" :: r.2)
    else
      (s, [call, Ev.toastError "Failed to add item to cart."])
  | none =>
    match s.items.find? (fun i => i.id == p.id) with
    | some _ =>
      ({ s with items := s.items.map (fun i =>
          if i.id == p.id then { i with quantity := i.quantity + 1 } else i) },
        [Ev.toastSuccess "Updated cart quantity"])
    | none =>
      ({ s with items := s.items ++ [CartItem.mk p.id p.name p.price 1 p.image_url] },
        [Ev.toastSuccess "Added to cart"])

/-- Operation `removeItem`.  Authenticated: delete the (user_id, product_id) row; on
error toast, otherwise toast success and re-fetch.  Guest: filter the line
out of the in-memory items. -/
def removeItem (okMut okFetch : Bool) (ps : List Product) (s : CartState) (pid : String) :
    CartState × List Ev :=
  match s.user with
  | some uid =>
    if okMut then
      let s2 := { s with db := deleteRow s.db uid pid }
      let r := fetchCartRun okFetch ps uid s2
      (r.1, Ev.deleteCall uid pid :: Ev.toastSuccess "Removed from cart" :: r.2)
    else
      (s, [Ev.deleteCall uid pid, Ev.toastError "Failed to remove item."])
  | none =>
    ({ s with items := s.items.filter (fun i => !(i.id == pid)) },
      [Ev.toastSuccess "Removed from cart"])

/-- Operation `updateQuantity`.  Quantity ≤ 0 delegates to `removeItem`.  Otherwise,
authenticated: remote update then re-fetch; guest: in-memory map. -/
def updateQuantity (okMut okFetch : Bool) (ps : List Product) (s : CartState)
    (pid : String) (q : Int) : CartState × List Ev :=
  if q ≤ 0 then
    removeItem okMut okFetch ps s pid
  else
    match s.user with
    | some uid =>
      if okMut then
        let s2 := { s with db := updateRow s.db uid pid q }
        let r := fetchCartRun okFetch ps uid s2
        (r.1, Ev.updateCall uid pid q :: r.2)
      else
        (s, [Ev.updateCall uid pid q, Ev.toastError "Failed to update quantity."])
    | none =>
      ({ s with items := s.items.map (fun i =>
          if i.id == pid then { i with quantity := q } else i) }, [])

/-- Operation `clearCart`.  Authenticated: delete all rows of the user, then
clear the in-memory items (on error only toast).  Guest: clear the items. -/
def clearCart (okMut : Bool) (s : CartState) : CartState × List Ev :=
  match s.user with
  | some uid =>
    if okMut then
      ({ s with db := deleteUser s.db uid, items := [] }, [Ev.deleteAllCall uid])
    else
      (s, [Ev.deleteAllCall uid, Ev.toastError "Failed to clear cart."])
  | none =>
    ({ s with items := [] }, [])

/-- Operation `mergeAndClearLocalCart`: no-op without a user or with an
empty local cart; otherwise one batched upsert of every local line keyed on
(user_id, product_id) with the local quantity.  On error toast and stop; on
success clear the in-memory items and re-fetch the durable cart. -/
def mergeAndClearLocalCart (okMut okFetch : Bool) (ps : List Product) (s : CartState)
    (localCart : List CartItem) : CartState × List Ev :=
  match s.user with
  | none => (s, [])
  | some uid =>
    if localCart.isEmpty then (s, [])
    else
      let upserts := localCart.map (fun item => CartRow.mk uid item.id item.quantity)
      if okMut then
        let s2 := { s with db := upsertRows s.db upserts, items := [] }
        let r := fetchCartRun okFetch ps uid s2
        (r.1, Ev.upsertCall upserts :: r.2)
      else
        (s, [Ev.upsertCall upserts, Ev.toastError "Could not merge your cart items."])

/-- The CartProvider effect on an identity change: with a user, merge the
guest items if any are held, else fetch the durable cart; without a user,
clear the in-memory items. -/
def onAuthChange (okMut okFetch : Bool) (ps : List Product) (newUser : Option String)
    (s : CartState) : CartState × List Ev :=
  let s1 := { s with user := newUser }
  match newUser with
  | some uid =>
    if s1.items.isEmpty then fetchCartRun okFetch ps uid s1
    else mergeAndClearLocalCart okMut okFetch ps s1 s1.items
  | none =>
    ({ s1 with items := [] }, [])

/-- A sequence of n `addItem` calls for the same product, chaining states
and concatenating the emitted events. -/
def iterAdd (ok1 ok2 : Bool) (ps : List Product) (p : ProductLite) :
    Nat → CartState → CartState × List Ev
  | 0, s => (s, [])
  | n + 1, s =>
    let r1 := addItem ok1 ok2 ps s p
    let r2 := iterAdd ok1 ok2 ps p n r1.1
    (r2.1, r1.2 ++ r2.2)

/-! ### Session Store (AuthProvider) -/

/-- The slice of a backend session the provider reads (`session.user`). -/
structure Session where
  user : String
deriving DecidableEq, Repr

/-- State of the AuthProvider. -/
structure AuthState where
  user : Option String
  session : Option Session
  role : Option String
  loading : Bool
deriving DecidableEq, Repr

/-- Provider-mount state: everything empty, `loading = true`. -/
def initAuthState : AuthState :=
  AuthState.mk none none none true

/-- One authentication-change notification together with the backend
answer to the role lookup that the handler would issue for it. -/
structure AuthNotif where
  sess : Option Session
  roleOk : Bool
  roleData : Option String
deriving DecidableEq, Repr

/-- The `onAuthStateChange` handler: store the session and its user (or
clear them), resolve the role when a user is present (`null` on lookup
failure), and set `loading := false`. -/
def onAuthNotify (n : AuthNotif) (_s : AuthState) : AuthState :=
  let currentUser := n.sess.map (fun ss => ss.user)
  { user := currentUser
    session := n.sess
    role :=
      match currentUser with
      | some _ => if n.roleOk then n.roleData else none
      | none => none
    loading := false }

/-- Process a sequence of notifications in order. -/
def runNotifs (ns : List AuthNotif) (s : AuthState) : AuthState :=
  ns.foldl (fun s n => onAuthNotify n s) s

/-- Operation `signOut`: request backend session termination; no local state write. -/
def signOut (s : AuthState) : AuthState × List Ev :=
  (s, [Ev.signOutCall])

/-! ### Well-formedness: at most one row per key, one line per product -/

/-- The composite keys of the remote table. -/
def dbKeys (db : DB) : List (String × String) :=
  db.map (fun r => (r.user_id, r.product_id))

/-- The remote table holds at most one row per (user_id, product_id). -/
def DBWf (db : DB) : Prop := (dbKeys db).Nodup

/-- A client cart holds at most one line per productId. -/
def ItemsWf (l : List CartItem) : Prop := (l.map (fun i => i.id)).Nodup

instance (db : DB) : Decidable (DBWf db) :=
  inferInstanceAs (Decidable ((dbKeys db).Nodup))

instance (l : List CartItem) : Decidable (ItemsWf l) :=
  inferInstanceAs (Decidable ((l.map (fun i : CartItem => i.id)).Nodup))

/-- Joint invariant on a cart state. -/
def Wf (s : CartState) : Prop := DBWf s.db ∧ ItemsWf s.items

instance (s : CartState) : Decidable (Wf s) :=
  inferInstanceAs (Decidable (DBWf s.db ∧ ItemsWf s.items))

/-! ### Basic lemmas about keys and upserts -/

theorem rowKeyIs_iff {u p : String} {r : CartRow} :
    rowKeyIs u p r = true ↔ r.user_id = u ∧ r.product_id = p := by
  simp [rowKeyIs]

theorem rowKeyIs_upsertFun (ru rp u p : String) (q : Int) (x : CartRow) :
    rowKeyIs u p (if rowKeyIs ru rp x then { x with quantity := q } else x) =
      rowKeyIs u p x := by
  split <;> rfl

theorem upsertRows_nil (db : DB) : upsertRows db [] = db := rfl

theorem upsertRows_cons (db : DB) (a : CartRow) (t : List CartRow) :
    upsertRows db (a :: t) = upsertRows (upsertRow db a) t := rfl

theorem dbLookup_upsertRow_self (db : DB) (r : CartRow) :
    dbLookup (upsertRow db r) r.user_id r.product_id = some r.quantity := by
  unfold upsertRow
  by_cases h : db.any (rowKeyIs r.user_id r.product_id) = true
  · rw [if_pos h]
    unfold dbLookup
    rw [List.find?_map]
    have hpf : rowKeyIs r.user_id r.product_id ∘
        (fun x => if rowKeyIs r.user_id r.product_id x then { x with quantity := r.quantity } else x) =
        rowKeyIs r.user_id r.product_id := by
      funext x
      exact rowKeyIs_upsertFun r.user_id r.product_id r.user_id r.product_id r.quantity x
    rw [hpf]
    rcases List.any_eq_true.mp h with ⟨x, hx, hpx⟩
    cases hf : db.find? (rowKeyIs r.user_id r.product_id) with
    | none =>
      rw [List.find?_eq_none] at hf
      exact absurd hpx (hf x hx)
    | some y =>
      have hy := List.find?_some hf
      simp [hy]
  · rw [if_neg h]
    unfold dbLookup
    rw [List.find?_append]
    have hnone : db.find? (rowKeyIs r.user_id r.product_id) = none := by
      rw [List.find?_eq_none]
      intro x hx hpx
      exact h (List.any_eq_true.mpr ⟨x, hx, hpx⟩)
    rw [hnone]
    have : rowKeyIs r.user_id r.product_id r = true := rowKeyIs_iff.mpr ⟨rfl, rfl⟩
    simp [List.find?, this]

theorem dbLookup_upsertRow_ne (db : DB) (r : CartRow) (u p : String)
    (h : ¬(r.user_id = u ∧ r.product_id = p)) :
    dbLookup (upsertRow db r) u p = dbLookup db u p := by
  unfold upsertRow
  by_cases hany : db.any (rowKeyIs r.user_id r.product_id) = true
  · rw [if_pos hany]
    unfold dbLookup
    rw [List.find?_map]
    have hpf : rowKeyIs u p ∘
        (fun x => if rowKeyIs r.user_id r.product_id x then { x with quantity := r.quantity } else x) =
        rowKeyIs u p := by
      funext x
      exact rowKeyIs_upsertFun r.user_id r.product_id u p r.quantity x
    rw [hpf]
    cases hf : db.find? (rowKeyIs u p) with
    | none => rfl
    | some y =>
      have hy := List.find?_some hf
      have hyk := rowKeyIs_iff.mp hy
      have : rowKeyIs r.user_id r.product_id y = false := by
        rw [Bool.eq_false_iff]
        intro hk
        rcases rowKeyIs_iff.mp hk with ⟨h1, h2⟩
        exact h ⟨by rw [← h1, hyk.1], by rw [← h2, hyk.2]⟩
      simp [this]
  · rw [if_neg hany]
    unfold dbLookup
    rw [List.find?_append]
    have : rowKeyIs u p r = false := by
      rw [Bool.eq_false_iff]
      intro hk
      rcases rowKeyIs_iff.mp hk with ⟨h1, h2⟩
      exact h ⟨h1, h2⟩
    cases hf : db.find? (rowKeyIs u p) with
    | none => simp [List.find?, this]
    | some y => rfl

theorem dbLookup_upsertRows_ne (db : DB) (rs : List CartRow) (u p : String)
    (h : ∀ r ∈ rs, ¬(r.user_id = u ∧ r.product_id = p)) :
    dbLookup (upsertRows db rs) u p = dbLookup db u p := by
  induction rs generalizing db with
  | nil => rfl
  | cons a t ih =>
    rw [upsertRows_cons, ih (upsertRow db a) (fun r hr => h r (List.mem_cons_of_mem a hr))]
    exact dbLookup_upsertRow_ne db a u p (h a (List.mem_cons_self a t))

theorem dbLookup_upsertRows_mem (db : DB) (rs : List CartRow) (r : CartRow)
    (hr : r ∈ rs) (hnd : (rs.map (fun x => (x.user_id, x.product_id))).Nodup) :
    dbLookup (upsertRows db rs) r.user_id r.product_id = some r.quantity := by
  induction rs generalizing db with
  | nil => cases hr
  | cons a t ih =>
    rw [List.map_cons, List.nodup_cons] at hnd
    rcases List.mem_cons.mp hr with rfl | hmem
    · rw [upsertRows_cons]
      rw [dbLookup_upsertRows_ne (upsertRow db r) t r.user_id r.product_id ?_]
      · exact dbLookup_upsertRow_self db r
      · intro x hx hxk
        apply hnd.1
        rw [List.mem_map]
        exact ⟨x, hx, by rw [hxk.1, hxk.2]⟩
    · rw [upsertRows_cons]
      exact ih (upsertRow db a) hmem hnd.2

/-! ### Preservation of the well-formedness invariants -/

theorem dbKeys_map_keyPreserving (db : DB) (f : CartRow → CartRow)
    (hf : ∀ r, (f r).user_id = r.user_id ∧ (f r).product_id = r.product_id) :
    dbKeys (db.map f) = dbKeys db := by
  unfold dbKeys
  rw [List.map_map]
  apply List.map_congr_left
  intro r _
  show ((f r).user_id, (f r).product_id) = (r.user_id, r.product_id)
  rw [(hf r).1, (hf r).2]

theorem DBWf_upsertRow (db : DB) (r : CartRow) (h : DBWf db) : DBWf (upsertRow db r) := by
  unfold upsertRow
  by_cases hany : db.any (rowKeyIs r.user_id r.product_id) = true
  · rw [if_pos hany]
    unfold DBWf
    rw [dbKeys_map_keyPreserving]
    · exact h
    · intro x
      constructor <;> (split <;> rfl)
  · rw [if_neg hany]
    unfold DBWf dbKeys
    rw [List.map_append]
    rw [List.nodup_append]
    refine ⟨h, List.nodup_singleton _, ?_⟩
    intro k hk hk1
    rcases List.mem_map.mp hk with ⟨x, hx, hxk⟩
    simp only [List.map_cons, List.map_nil, List.mem_singleton] at hk1
    apply hany
    rw [List.any_eq_true]
    refine ⟨x, hx, rowKeyIs_iff.mpr ?_⟩
    have : (x.user_id, x.product_id) = (r.user_id, r.product_id) := by
      rw [hxk]
      simpa using hk1
    exact ⟨congrArg Prod.fst this, congrArg Prod.snd this⟩

theorem DBWf_upsertRows (db : DB) (rs : List CartRow) (h : DBWf db) :
    DBWf (upsertRows db rs) := by
  induction rs generalizing db with
  | nil => exact h
  | cons a t ih => exact ih (upsertRow db a) (DBWf_upsertRow db a h)

theorem DBWf_filter (db : DB) (p : CartRow → Bool) (h : DBWf db) :
    DBWf (db.filter p) :=
  List.Nodup.sublist (List.Sublist.map _ (List.filter_sublist db)) h

theorem DBWf_deleteRow (db : DB) (u pid : String) (h : DBWf db) :
    DBWf (deleteRow db u pid) :=
  DBWf_filter db _ h

theorem DBWf_deleteUser (db : DB) (u : String) (h : DBWf db) :
    DBWf (deleteUser db u) :=
  DBWf_filter db _ h

theorem DBWf_updateRow (db : DB) (u pid : String) (q : Int) (h : DBWf db) :
    DBWf (updateRow db u pid q) := by
  unfold DBWf updateRow
  rw [dbKeys_map_keyPreserving]
  · exact h
  · intro x
    constructor <;> (split <;> rfl)

theorem pids_nodup_of_const_user (l : DB) (uid : String)
    (hk : (l.map (fun r => (r.user_id, r.product_id))).Nodup)
    (hu : ∀ r ∈ l, r.user_id = uid) :
    (l.map (fun r => r.product_id)).Nodup := by
  induction l with
  | nil => simp
  | cons a t ih =>
    rw [List.map_cons, List.nodup_cons] at hk ⊢
    refine ⟨?_, ih hk.2 (fun r hr => hu r (List.mem_cons_of_mem a hr))⟩
    intro hmem
    rcases List.mem_map.mp hmem with ⟨x, hx, hpid⟩
    apply hk.1
    rw [List.mem_map]
    refine ⟨x, hx, ?_⟩
    rw [hu x (List.mem_cons_of_mem a hx), hu a (List.mem_cons_self a t), hpid]

theorem selectUser_pids_nodup (db : DB) (uid : String) (h : DBWf db) :
    ((selectUser db uid).map (fun r => r.product_id)).Nodup := by
  apply pids_nodup_of_const_user (selectUser db uid) uid
  · exact List.Nodup.sublist (List.Sublist.map _ (List.filter_sublist db)) h
  · intro r hr
    have := (List.mem_filter.mp hr).2
    simpa using this

theorem filterMap_ids_nodup (g : CartRow → Option CartItem)
    (hg : ∀ r it, g r = some it → it.id = r.product_id)
    (l : DB) (h : (l.map (fun r => r.product_id)).Nodup) :
    ((l.filterMap g).map (fun i => i.id)).Nodup := by
  induction l with
  | nil => simp
  | cons a t ih =>
    rw [List.map_cons, List.nodup_cons] at h
    rw [List.filterMap_cons]
    cases hga : g a with
    | none => exact ih h.2
    | some it =>
      rw [List.map_cons, List.nodup_cons]
      refine ⟨?_, ih h.2⟩
      intro hmem
      rcases List.mem_map.mp hmem with ⟨x, hx, hid⟩
      rcases List.mem_filterMap.mp hx with ⟨rr, hrr, hgrr⟩
      apply h.1
      rw [List.mem_map]
      refine ⟨rr, hrr, ?_⟩
      rw [← hg rr x hgrr, hid, hg a it hga]

theorem fetchItems_wf (ps : List Product) (db : DB) (uid : String) (h : DBWf db) :
    ItemsWf (fetchItems ps db uid) := by
  unfold ItemsWf fetchItems
  apply filterMap_ids_nodup
  · intro r it hit
    rcases Option.map_eq_some'.mp hit with ⟨p, _, hp⟩
    rw [← hp]
  · exact selectUser_pids_nodup db uid h

theorem itemsWf_map_id_preserving (l : List CartItem) (f : CartItem → CartItem)
    (hf : ∀ i, (f i).id = i.id) (h : ItemsWf l) : ItemsWf (l.map f) := by
  unfold ItemsWf at *
  rw [List.map_map]
  have heq : (fun i : CartItem => i.id) ∘ f = fun i : CartItem => i.id :=
    funext fun i => hf i
  rw [heq]
  exact h

theorem itemsWf_filter (l : List CartItem) (p : CartItem → Bool) (h : ItemsWf l) :
    ItemsWf (l.filter p) :=
  List.Nodup.sublist (List.Sublist.map _ (List.filter_sublist l)) h

theorem fetchCartRun_wf (ok : Bool) (ps : List Product) (uid : String) (s : CartState)
    (h : Wf s) : Wf (fetchCartRun ok ps uid s).1 := by
  unfold fetchCartRun
  cases ok with
  | true => exact ⟨h.1, fetchItems_wf ps s.db uid h.1⟩
  | false => exact h

theorem addItem_wf (ok1 ok2 : Bool) (ps : List Product) (s : CartState) (p : ProductLite)
    (h : Wf s) : Wf (addItem ok1 ok2 ps s p).1 := by
  unfold addItem
  cases s.user with
  | some uid =>
    cases ok1 with
    | true =>
      simp only [if_true]
      exact fetchCartRun_wf ok2 ps uid _ ⟨DBWf_upsertRow s.db _ h.1, h.2⟩
    | false => exact h
  | none =>
    cases hf : s.items.find? (fun i => i.id == p.id) with
    | some it =>
      refine ⟨h.1, itemsWf_map_id_preserving s.items _ ?_ h.2⟩
      intro i
      split <;> rfl
    | none =>
      refine ⟨h.1, ?_⟩
      unfold ItemsWf
      rw [List.map_append, List.nodup_append]
      refine ⟨h.2, List.nodup_singleton _, ?_⟩
      intro x hx hx1
      rw [List.find?_eq_none] at hf
      rcases List.mem_map.mp hx with ⟨i, hi, hiid⟩
      simp only [List.map_cons, List.map_nil, List.mem_singleton] at hx1
      apply hf i hi
      simp [hiid, hx1]

theorem removeItem_wf (ok1 ok2 : Bool) (ps : List Product) (s : CartState) (pid : String)
    (h : Wf s) : Wf (removeItem ok1 ok2 ps s pid).1 := by
  unfold removeItem
  cases s.user with
  | some uid =>
    cases ok1 with
    | true =>
      simp only [if_true]
      exact fetchCartRun_wf ok2 ps uid _ ⟨DBWf_deleteRow s.db uid pid h.1, h.2⟩
    | false => exact h
  | none => exact ⟨h.1, itemsWf_filter s.items _ h.2⟩

theorem updateQuantity_wf (ok1 ok2 : Bool) (ps : List Product) (s : CartState)
    (pid : String) (q : Int) (h : Wf s) : Wf (updateQuantity ok1 ok2 ps s pid q).1 := by
  unfold updateQuantity
  by_cases hq : q ≤ 0
  · rw [if_pos hq]
    exact removeItem_wf ok1 ok2 ps s pid h
  · rw [if_neg hq]
    cases s.user with
    | some uid =>
      cases ok1 with
      | true =>
        simp only [if_true]
        exact fetchCartRun_wf ok2 ps uid _ ⟨DBWf_updateRow s.db uid pid q h.1, h.2⟩
      | false => exact h
    | none =>
      refine ⟨h.1, itemsWf_map_id_preserving s.items _ ?_ h.2⟩
      intro i
      split <;> rfl

theorem clearCart_wf (ok1 : Bool) (s : CartState) (h : Wf s) : Wf (clearCart ok1 s).1 := by
  unfold clearCart
  cases s.user with
  | some uid =>
    cases ok1 with
    | true => exact ⟨DBWf_deleteUser s.db uid h.1, List.nodup_nil⟩
    | false => exact h
  | none => exact ⟨h.1, List.nodup_nil⟩

theorem merge_wf (ok1 ok2 : Bool) (ps : List Product) (s : CartState)
    (lc : List CartItem) (h : Wf s) : Wf (mergeAndClearLocalCart ok1 ok2 ps s lc).1 := by
  unfold mergeAndClearLocalCart
  cases s.user with
  | some uid =>
    dsimp only
    by_cases hlc : lc.isEmpty = true
    · rw [if_pos hlc]
      exact h
    · rw [if_neg hlc]
      cases ok1 with
      | true =>
        simp only [if_true]
        exact fetchCartRun_wf ok2 ps uid _ ⟨DBWf_upsertRows s.db _ h.1, List.nodup_nil⟩
      | false => exact h
  | none => exact h

theorem onAuthChange_wf (ok1 ok2 : Bool) (ps : List Product) (nu : Option String)
    (s : CartState) (h : Wf s) : Wf (onAuthChange ok1 ok2 ps nu s).1 := by
  unfold onAuthChange
  cases nu with
  | some uid =>
    by_cases hi : s.items.isEmpty = true
    · simp only [hi, if_true]
      exact fetchCartRun_wf ok2 ps uid _ ⟨h.1, h.2⟩
    · simp only [hi]
      rw [if_neg Bool.false_ne_true]
      exact merge_wf ok1 ok2 ps _ _ ⟨h.1, h.2⟩
  | none => exact ⟨h.1, List.nodup_nil⟩

/-! ### Auxiliary lemmas for the claim theorems -/

theorem find?_eq_head?_filter {α : Type} (p : α → Bool) (l : List α) :
    l.find? p = (l.filter p).head? := by
  induction l with
  | nil => rfl
  | cons a t ih =>
    by_cases hp : p a = true
    · rw [List.find?_cons_of_pos t hp, List.filter_cons_of_pos hp, List.head?_cons]
    · rw [List.find?_cons_of_neg t hp, List.filter_cons_of_neg hp, ih]

theorem total_foldl_add (l : List CartItem) (a : ℚ) :
    l.foldl (fun sum item => sum + item.price * (item.quantity : ℚ)) a =
      a + (l.map (fun i => i.price * (i.quantity : ℚ))).sum := by
  induction l generalizing a with
  | nil => simp
  | cons i t ih =>
    rw [List.foldl_cons, ih, List.map_cons, List.sum_cons, add_assoc]

theorem runNotifs_cons (n : AuthNotif) (t : List AuthNotif) (s : AuthState) :
    runNotifs (n :: t) s = runNotifs t (onAuthNotify n s) := rfl

theorem runNotifs_loading_false (t : List AuthNotif) (s : AuthState)
    (h : s.loading = false) : (runNotifs t s).loading = false := by
  induction t generalizing s with
  | nil => exact h
  | cons n t ih => exact ih (onAuthNotify n s) rfl

theorem guest_addItem_fresh (ok1 ok2 : Bool) (ps : List Product) (s : CartState)
    (p : ProductLite) (hu : s.user = none)
    (hf : s.items.find? (fun i => i.id == p.id) = none) :
    addItem ok1 ok2 ps s p =
      ({ s with items := s.items ++ [CartItem.mk p.id p.name p.price 1 p.image_url] },
        [Ev.toastSuccess "Added to cart"]) := by
  unfold addItem
  rw [hu]
  dsimp only
  rw [hf]

theorem guest_addItem_existing (ok1 ok2 : Bool) (ps : List Product) (s : CartState)
    (p : ProductLite) (it : CartItem) (hu : s.user = none)
    (hf : s.items.find? (fun i => i.id == p.id) = some it) :
    addItem ok1 ok2 ps s p =
      ({ s with items := s.items.map (fun i =>
          if i.id == p.id then { i with quantity := i.quantity + 1 } else i) },
        [Ev.toastSuccess "Updated cart quantity"]) := by
  unfold addItem
  rw [hu]
  dsimp only
  rw [hf]

theorem filter_id_map_increment (l : List CartItem) (pid : String) :
    (l.map (fun i => if i.id == pid then { i with quantity := i.quantity + 1 } else i)).filter
        (fun i => i.id == pid) =
      (l.filter (fun i => i.id == pid)).map
        (fun i => if i.id == pid then { i with quantity := i.quantity + 1 } else i) := by
  rw [List.filter_map]
  congr 1
  apply List.filter_congr
  intro i _
  dsimp only [Function.comp_apply]
  split <;> rfl

theorem iterAdd_guest_inv (ok1 ok2 : Bool) (ps : List Product) (p : ProductLite) (m : Nat) :
    ∀ (s : CartState) (q : Int), s.user = none →
      s.items.filter (fun i => i.id == p.id) = [CartItem.mk p.id p.name p.price q p.image_url] →
      (iterAdd ok1 ok2 ps p m s).1.user = none ∧
      (iterAdd ok1 ok2 ps p m s).1.items.filter (fun i => i.id == p.id) =
        [CartItem.mk p.id p.name p.price (q + m) p.image_url] ∧
      (iterAdd ok1 ok2 ps p m s).2.filter Ev.isNet = [] := by
  induction m with
  | zero =>
    intro s q hu hf
    refine ⟨hu, ?_, rfl⟩
    show s.items.filter (fun i => i.id == p.id) = _
    rw [hf]
    norm_num
  | succ m ih =>
    intro s q hu hf
    have hfind : s.items.find? (fun i => i.id == p.id) =
        some (CartItem.mk p.id p.name p.price q p.image_url) := by
      rw [find?_eq_head?_filter, hf]
      rfl
    have hstep := guest_addItem_existing ok1 ok2 ps s p _ hu hfind
    have hfilter1 : (addItem ok1 ok2 ps s p).1.items.filter (fun i => i.id == p.id) =
        [CartItem.mk p.id p.name p.price (q + 1) p.image_url] := by
      rw [hstep]
      dsimp only
      rw [filter_id_map_increment, hf]
      simp
    have huser1 : (addItem ok1 ok2 ps s p).1.user = none := by
      rw [hstep]
      exact hu
    have hinv := ih (addItem ok1 ok2 ps s p).1 (q + 1) huser1 hfilter1
    have harith : q + 1 + (m : Int) = q + ((m + 1 : Nat) : Int) := by
      push_cast
      ring
    refine ⟨hinv.1, ?_, ?_⟩
    · show ((iterAdd ok1 ok2 ps p m (addItem ok1 ok2 ps s p).1).1.items.filter
        (fun i => i.id == p.id)) = _
      rw [hinv.2.1, harith]
    · show ((addItem ok1 ok2 ps s p).2 ++
          (iterAdd ok1 ok2 ps p m (addItem ok1 ok2 ps s p).1).2).filter Ev.isNet = []
      rw [List.filter_append, hinv.2.2, hstep]
      rfl

/-! ### Claim theorems -/

/-- C2: n guest-mode addItem calls for the same productId yield exactly one
cart line for it, with quantity n, and emit no network calls. -/
theorem guest_addItem_count (ok1 ok2 : Bool) (ps : List Product) (s : CartState)
    (p : ProductLite) (n : Nat) (hu : s.user = none)
    (hnew : ∀ i ∈ s.items, ¬ i.id = p.id) (hn : 1 ≤ n) :
    (iterAdd ok1 ok2 ps p n s).1.items.filter (fun i => i.id == p.id) =
      [CartItem.mk p.id p.name p.price (n : Int) p.image_url] ∧
    (iterAdd ok1 ok2 ps p n s).2.filter Ev.isNet = [] := by
  obtain ⟨m, rfl⟩ : ∃ m, n = m + 1 := ⟨n - 1, by omega⟩
  have hfind : s.items.find? (fun i => i.id == p.id) = none := by
    rw [List.find?_eq_none]
    intro i hi
    simp [hnew i hi]
  have hstep := guest_addItem_fresh ok1 ok2 ps s p hu hfind
  have hfilter1 : (addItem ok1 ok2 ps s p).1.items.filter (fun i => i.id == p.id) =
      [CartItem.mk p.id p.name p.price 1 p.image_url] := by
    rw [hstep]
    dsimp only
    rw [List.filter_append]
    have h1 : s.items.filter (fun i => i.id == p.id) = [] := by
      rw [List.filter_eq_nil_iff]
      intro i hi
      simp [hnew i hi]
    rw [h1]
    simp
  have huser1 : (addItem ok1 ok2 ps s p).1.user = none := by
    rw [hstep]
    exact hu
  have hinv := iterAdd_guest_inv ok1 ok2 ps p m (addItem ok1 ok2 ps s p).1 1 huser1 hfilter1
  have harith : (1 : Int) + (m : Int) = ((m + 1 : Nat) : Int) := by
    push_cast
    ring
  refine ⟨?_, ?_⟩
  · show ((iterAdd ok1 ok2 ps p m (addItem ok1 ok2 ps s p).1).1.items.filter
      (fun i => i.id == p.id)) = _
    rw [hinv.2.1, harith]
  · show ((addItem ok1 ok2 ps s p).2 ++
        (iterAdd ok1 ok2 ps p m (addItem ok1 ok2 ps s p).1).2).filter Ev.isNet = []
    rw [List.filter_append, hinv.2.2, hstep]
    rfl

/-- Witness for C2: three adds of a fresh product in a guest cart. -/
theorem guest_addItem_count_witness :
    (CartState.mk none [] []).user = none ∧
      (∀ i ∈ (CartState.mk none [] []).items, ¬ i.id = "p1") ∧ 1 ≤ 3 ∧
      ((iterAdd true true [] (ProductLite.mk "p1" "Cake" 5 none) 3
          (CartState.mk none [] [])).1.items.filter (fun i => i.id == "p1") =
        [CartItem.mk "p1" "Cake" 5 (3 : Int) none] ∧
      (iterAdd true true [] (ProductLite.mk "p1" "Cake" 5 none) 3
          (CartState.mk none [] [])).2.filter Ev.isNet = []) :=
  ⟨rfl, by decide, by decide,
    guest_addItem_count true true [] (CartState.mk none [] [])
      (ProductLite.mk "p1" "Cake" 5 none) 3 rfl (by decide) (by decide)⟩

/-- C3: in Authenticated mode every mutation performs the remote
upsert/delete/update and then a full re-fetch of the durable cart (the
re-fetched rows are the new items), and applies no local update when the
remote operation fails. -/
theorem auth_mutations_refetch (ok2 : Bool) (ps : List Product) (s : CartState)
    (uid : String) (p : ProductLite) (pid : String) (q : Int)
    (hu : s.user = some uid) (hq : 0 < q) :
    ((addItem true true ps s p).1.items = fetchItems ps (addItem true true ps s p).1.db uid ∧
      (∃ r, (addItem true true ps s p).2.filter Ev.isNet =
        [Ev.upsertCall [r], Ev.selectCall uid])) ∧
    ((removeItem true true ps s pid).1.items =
        fetchItems ps (removeItem true true ps s pid).1.db uid ∧
      (removeItem true true ps s pid).2.filter Ev.isNet =
        [Ev.deleteCall uid pid, Ev.selectCall uid]) ∧
    ((updateQuantity true true ps s pid q).1.items =
        fetchItems ps (updateQuantity true true ps s pid q).1.db uid ∧
      (updateQuantity true true ps s pid q).2.filter Ev.isNet =
        [Ev.updateCall uid pid q, Ev.selectCall uid]) ∧
    (addItem false ok2 ps s p).1 = s ∧
    (removeItem false ok2 ps s pid).1 = s ∧
    (updateQuantity false ok2 ps s pid q).1 = s := by
  obtain ⟨su, items, db⟩ := s
  dsimp only at hu
  subst hu
  have hqn : ¬ q ≤ 0 := not_le.mpr hq
  refine ⟨⟨?_, ?_⟩, ⟨?_, ?_⟩, ⟨?_, ?_⟩, ?_, ?_, ?_⟩
  · simp [addItem, fetchCartRun]
  · exact ⟨CartRow.mk uid p.id ((match items.find? (fun i => i.id == p.id) with
      | some i => i.quantity
      | none => 0) + 1), by simp [addItem, fetchCartRun, Ev.isNet]⟩
  · simp [removeItem, fetchCartRun]
  · simp [removeItem, fetchCartRun, Ev.isNet]
  · simp [updateQuantity, fetchCartRun, hqn]
  · simp [updateQuantity, fetchCartRun, hqn, Ev.isNet]
  · simp [addItem]
  · simp [removeItem]
  · simp [updateQuantity, hqn]

/-- Witness for C3 on a concrete authenticated state. -/
theorem auth_mutations_refetch_witness :
    (CartState.mk (some "u1") [] [CartRow.mk "u1" "p1" 2]).user = some "u1" ∧ (0 : Int) < 2 ∧
      (((addItem true true [Product.mk "p1" "Cake" 5 none]
          (CartState.mk (some "u1") [] [CartRow.mk "u1" "p1" 2]) (ProductLite.mk "p1" "Cake" 5 none)).1.items =
        fetchItems [Product.mk "p1" "Cake" 5 none]
          (addItem true true [Product.mk "p1" "Cake" 5 none]
            (CartState.mk (some "u1") [] [CartRow.mk "u1" "p1" 2]) (ProductLite.mk "p1" "Cake" 5 none)).1.db "u1" ∧
        (∃ r, (addItem true true [Product.mk "p1" "Cake" 5 none]
            (CartState.mk (some "u1") [] [CartRow.mk "u1" "p1" 2]) (ProductLite.mk "p1" "Cake" 5 none)).2.filter Ev.isNet =
          [Ev.upsertCall [r], Ev.selectCall "u1"])) ∧
      ((removeItem true true [Product.mk "p1" "Cake" 5 none]
          (CartState.mk (some "u1") [] [CartRow.mk "u1" "p1" 2]) "p1").1.items =
        fetchItems [Product.mk "p1" "Cake" 5 none]
          (removeItem true true [Product.mk "p1" "Cake" 5 none]
            (CartState.mk (some "u1") [] [CartRow.mk "u1" "p1" 2]) "p1").1.db "u1" ∧
        (removeItem true true [Product.mk "p1" "Cake" 5 none]
          (CartState.mk (some "u1") [] [CartRow.mk "u1" "p1" 2]) "p1").2.filter Ev.isNet =
          [Ev.deleteCall "u1" "p1", Ev.selectCall "u1"]) ∧
      ((updateQuantity true true [Product.mk "p1" "Cake" 5 none]
          (CartState.mk (some "u1") [] [CartRow.mk "u1" "p1" 2]) "p1" 2).1.items =
        fetchItems [Product.mk "p1" "Cake" 5 none]
          (updateQuantity true true [Product.mk "p1" "Cake" 5 none]
            (CartState.mk (some "u1") [] [CartRow.mk "u1" "p1" 2]) "p1" 2).1.db "u1" ∧
        (updateQuantity true true [Product.mk "p1" "Cake" 5 none]
          (CartState.mk (some "u1") [] [CartRow.mk "u1" "p1" 2]) "p1" 2).2.filter Ev.isNet =
          [Ev.updateCall "u1" "p1" 2, Ev.selectCall "u1"]) ∧
      (addItem false true [Product.mk "p1" "Cake" 5 none]
        (CartState.mk (some "u1") [] [CartRow.mk "u1" "p1" 2]) (ProductLite.mk "p1" "Cake" 5 none)).1 =
        CartState.mk (some "u1") [] [CartRow.mk "u1" "p1" 2] ∧
      (removeItem false true [Product.mk "p1" "Cake" 5 none]
        (CartState.mk (some "u1") [] [CartRow.mk "u1" "p1" 2]) "p1").1 =
        CartState.mk (some "u1") [] [CartRow.mk "u1" "p1" 2] ∧
      (updateQuantity false true [Product.mk "p1" "Cake" 5 none]
        (CartState.mk (some "u1") [] [CartRow.mk "u1" "p1" 2]) "p1" 2).1 =
        CartState.mk (some "u1") [] [CartRow.mk "u1" "p1" 2]) :=
  ⟨rfl, by decide,
    auth_mutations_refetch true [Product.mk "p1" "Cake" 5 none]
      (CartState.mk (some "u1") [] [CartRow.mk "u1" "p1" 2]) "u1"
      (ProductLite.mk "p1" "Cake" 5 none) "p1" 2 rfl (by decide)⟩

/-- C4: a failing merge upsert is reported with a non-fatal toast, aborts the
remaining merge steps (no re-fetch), and leaves the guest items and the
durable rows untouched; the guest items are cleared and replaced by the
re-fetched durable cart only when the upsert succeeds. -/
theorem merge_failure_aborts (ok2 : Bool) (ps : List Product) (s : CartState)
    (uid : String) (lc : List CartItem) (hu : s.user = some uid) (hlc : lc ≠ []) :
    (mergeAndClearLocalCart false ok2 ps s lc).1 = s ∧
    (mergeAndClearLocalCart false ok2 ps s lc).2 =
      [Ev.upsertCall (lc.map (fun item => CartRow.mk uid item.id item.quantity)),
        Ev.toastError "Could not merge your cart items."] ∧
    (mergeAndClearLocalCart true true ps s lc).1.items =
      fetchItems ps
        (upsertRows s.db (lc.map (fun item => CartRow.mk uid item.id item.quantity))) uid := by
  obtain ⟨su, items, db⟩ := s
  dsimp only at hu
  subst hu
  have hne : lc.isEmpty = false := by
    cases lc with
    | nil => exact absurd rfl hlc
    | cons a t => rfl
  refine ⟨?_, ?_, ?_⟩ <;> simp [mergeAndClearLocalCart, fetchCartRun, hne]

/-- Witness for C4 on a concrete one-line guest cart. -/
theorem merge_failure_aborts_witness :
    (CartState.mk (some "u1") [CartItem.mk "p1" "Cake" 5 2 none] [CartRow.mk "u1" "p1" 9]).user =
        some "u1" ∧
      ([CartItem.mk "p1" "Cake" 5 2 none] : List CartItem) ≠ [] ∧
      ((mergeAndClearLocalCart false true [Product.mk "p1" "Cake" 5 none]
          (CartState.mk (some "u1") [CartItem.mk "p1" "Cake" 5 2 none] [CartRow.mk "u1" "p1" 9])
          [CartItem.mk "p1" "Cake" 5 2 none]).1 =
        CartState.mk (some "u1") [CartItem.mk "p1" "Cake" 5 2 none] [CartRow.mk "u1" "p1" 9] ∧
      (mergeAndClearLocalCart false true [Product.mk "p1" "Cake" 5 none]
          (CartState.mk (some "u1") [CartItem.mk "p1" "Cake" 5 2 none] [CartRow.mk "u1" "p1" 9])
          [CartItem.mk "p1" "Cake" 5 2 none]).2 =
        [Ev.upsertCall ([CartItem.mk "p1" "Cake" 5 2 none].map
            (fun item => CartRow.mk "u1" item.id item.quantity)),
          Ev.toastError "Could not merge your cart items."] ∧
      (mergeAndClearLocalCart true true [Product.mk "p1" "Cake" 5 none]
          (CartState.mk (some "u1") [CartItem.mk "p1" "Cake" 5 2 none] [CartRow.mk "u1" "p1" 9])
          [CartItem.mk "p1" "Cake" 5 2 none]).1.items =
        fetchItems [Product.mk "p1" "Cake" 5 none]
          (upsertRows [CartRow.mk "u1" "p1" 9]
            ([CartItem.mk "p1" "Cake" 5 2 none].map
              (fun item => CartRow.mk "u1" item.id item.quantity))) "u1") :=
  ⟨rfl, by decide,
    merge_failure_aborts true [Product.mk "p1" "Cake" 5 none]
      (CartState.mk (some "u1") [CartItem.mk "p1" "Cake" 5 2 none] [CartRow.mk "u1" "p1" 9])
      "u1" [CartItem.mk "p1" "Cake" 5 2 none] rfl (by decide)⟩

/-- C10: the merge issues exactly one batched upsert carrying every guest
line; on failure nothing is persisted and the guest items are kept; on
success the whole batch is persisted at once and the guest items are cleared
and replaced by the re-fetch. -/
theorem merge_single_batched_upsert (ok1 ok2 : Bool) (ps : List Product) (s : CartState)
    (uid : String) (lc : List CartItem) (hu : s.user = some uid) (hlc : lc ≠ []) :
    (mergeAndClearLocalCart ok1 ok2 ps s lc).2.filter Ev.isUpsert =
      [Ev.upsertCall (lc.map (fun item => CartRow.mk uid item.id item.quantity))] ∧
    (ok1 = false → (mergeAndClearLocalCart ok1 ok2 ps s lc).1.db = s.db ∧
      (mergeAndClearLocalCart ok1 ok2 ps s lc).1.items = s.items) ∧
    (ok1 = true → (mergeAndClearLocalCart ok1 ok2 ps s lc).1.db =
        upsertRows s.db (lc.map (fun item => CartRow.mk uid item.id item.quantity)) ∧
      (mergeAndClearLocalCart ok1 true ps s lc).1.items =
        fetchItems ps
          (upsertRows s.db (lc.map (fun item => CartRow.mk uid item.id item.quantity))) uid) := by
  obtain ⟨su, items, db⟩ := s
  dsimp only at hu
  subst hu
  have hne : lc.isEmpty = false := by
    cases lc with
    | nil => exact absurd rfl hlc
    | cons a t => rfl
  cases ok1 <;> cases ok2 <;>
    refine ⟨?_, ?_, ?_⟩ <;>
      simp [mergeAndClearLocalCart, fetchCartRun, hne, Ev.isUpsert]

/-- Witness for C10 on a concrete one-line guest cart. -/
theorem merge_single_batched_upsert_witness :
    (CartState.mk (some "u1") [CartItem.mk "p1" "Cake" 5 2 none] [CartRow.mk "u1" "p1" 9]).user =
        some "u1" ∧
      ([CartItem.mk "p1" "Cake" 5 2 none] : List CartItem) ≠ [] ∧
      ((mergeAndClearLocalCart true true [Product.mk "p1" "Cake" 5 none]
          (CartState.mk (some "u1") [CartItem.mk "p1" "Cake" 5 2 none] [CartRow.mk "u1" "p1" 9])
          [CartItem.mk "p1" "Cake" 5 2 none]).2.filter Ev.isUpsert =
        [Ev.upsertCall ([CartItem.mk "p1" "Cake" 5 2 none].map
            (fun item => CartRow.mk "u1" item.id item.quantity))] ∧
      (true = false → (mergeAndClearLocalCart true true [Product.mk "p1" "Cake" 5 none]
          (CartState.mk (some "u1") [CartItem.mk "p1" "Cake" 5 2 none] [CartRow.mk "u1" "p1" 9])
          [CartItem.mk "p1" "Cake" 5 2 none]).1.db = [CartRow.mk "u1" "p1" 9] ∧
        (mergeAndClearLocalCart true true [Product.mk "p1" "Cake" 5 none]
          (CartState.mk (some "u1") [CartItem.mk "p1" "Cake" 5 2 none] [CartRow.mk "u1" "p1" 9])
          [CartItem.mk "p1" "Cake" 5 2 none]).1.items = [CartItem.mk "p1" "Cake" 5 2 none]) ∧
      (true = true → (mergeAndClearLocalCart true true [Product.mk "p1" "Cake" 5 none]
          (CartState.mk (some "u1") [CartItem.mk "p1" "Cake" 5 2 none] [CartRow.mk "u1" "p1" 9])
          [CartItem.mk "p1" "Cake" 5 2 none]).1.db =
          upsertRows [CartRow.mk "u1" "p1" 9]
            ([CartItem.mk "p1" "Cake" 5 2 none].map
              (fun item => CartRow.mk "u1" item.id item.quantity)) ∧
        (mergeAndClearLocalCart true true [Product.mk "p1" "Cake" 5 none]
          (CartState.mk (some "u1") [CartItem.mk "p1" "Cake" 5 2 none] [CartRow.mk "u1" "p1" 9])
          [CartItem.mk "p1" "Cake" 5 2 none]).1.items =
          fetchItems [Product.mk "p1" "Cake" 5 none]
            (upsertRows [CartRow.mk "u1" "p1" 9]
              ([CartItem.mk "p1" "Cake" 5 2 none].map
                (fun item => CartRow.mk "u1" item.id item.quantity))) "u1")) :=
  ⟨rfl, by decide,
    merge_single_batched_upsert true true [Product.mk "p1" "Cake" 5 none]
      (CartState.mk (some "u1") [CartItem.mk "p1" "Cake" 5 2 none] [CartRow.mk "u1" "p1" 9])
      "u1" [CartItem.mk "p1" "Cake" 5 2 none] rfl (by decide)⟩

/-- C1: on the Guest→Authenticated transition with both carts non-empty, the
merge overwrites the durable quantity with the guest quantity for every
guest productId, leaves every durable row with a different key unchanged,
and on success clears the guest items and re-fetches the durable cart as
the new source of truth. -/
theorem merge_overwrite_preserve_refetch (ps : List Product) (s : CartState) (uid : String)
    (hu : s.user = none) (hg : s.items ≠ []) (hd : selectUser s.db uid ≠ [])
    (hnd : (s.items.map (fun i => i.id)).Nodup) :
    (∀ it ∈ s.items,
      dbLookup (onAuthChange true true ps (some uid) s).1.db uid it.id = some it.quantity) ∧
    (∀ u2 p2 : String, (u2 ≠ uid ∨ ∀ it ∈ s.items, it.id ≠ p2) →
      dbLookup (onAuthChange true true ps (some uid) s).1.db u2 p2 = dbLookup s.db u2 p2) ∧
    (onAuthChange true true ps (some uid) s).1.items =
      fetchItems ps (onAuthChange true true ps (some uid) s).1.db uid := by
  obtain ⟨su, items, db⟩ := s
  dsimp only at hu hg hnd ⊢
  subst hu
  have hne : items.isEmpty = false := by
    cases items with
    | nil => exact absurd rfl hg
    | cons a t => rfl
  have hred : (onAuthChange true true ps (some uid) (CartState.mk none items db)).1 =
      CartState.mk (some uid)
        (fetchItems ps
          (upsertRows db (items.map (fun item => CartRow.mk uid item.id item.quantity))) uid)
        (upsertRows db (items.map (fun item => CartRow.mk uid item.id item.quantity))) := by
    simp [onAuthChange, mergeAndClearLocalCart, fetchCartRun, hne]
  have hkeys : ((items.map (fun item => CartRow.mk uid item.id item.quantity)).map
      (fun x => (x.user_id, x.product_id))).Nodup := by
    rw [List.map_map]
    have : ((fun x : CartRow => (x.user_id, x.product_id)) ∘
        (fun item : CartItem => CartRow.mk uid item.id item.quantity)) =
        (fun id => (uid, id)) ∘ (fun i : CartItem => i.id) := rfl
    rw [this, ← List.map_map]
    exact hnd.map (fun a b h => congrArg Prod.snd h)
  rw [hred]
  refine ⟨?_, ?_, rfl⟩
  · intro it hit
    have := dbLookup_upsertRows_mem db
      (items.map (fun item => CartRow.mk uid item.id item.quantity))
      (CartRow.mk uid it.id it.quantity)
      (List.mem_map.mpr ⟨it, hit, rfl⟩) hkeys
    exact this
  · intro u2 p2 hcond
    apply dbLookup_upsertRows_ne
    intro r hr hk
    rcases List.mem_map.mp hr with ⟨it, hit, rfl⟩
    rcases hcond with h | h
    · exact h (hk.1.symm)
    · exact h it hit hk.2

/-- Witness for C1: one guest line overwriting an existing durable row, a
second durable row for the same user and one for another user preserved. -/
theorem merge_overwrite_preserve_refetch_witness :
    (CartState.mk none [CartItem.mk "p1" "Cake" 5 2 none]
        [CartRow.mk "u1" "p1" 9, CartRow.mk "u1" "p2" 7, CartRow.mk "u2" "p1" 3]).user = none ∧
      ([CartItem.mk "p1" "Cake" 5 2 none] : List CartItem) ≠ [] ∧
      selectUser [CartRow.mk "u1" "p1" 9, CartRow.mk "u1" "p2" 7, CartRow.mk "u2" "p1" 3] "u1" ≠ [] ∧
      (([CartItem.mk "p1" "Cake" 5 2 none] : List CartItem).map (fun i => i.id)).Nodup ∧
      ((∀ it ∈ ([CartItem.mk "p1" "Cake" 5 2 none] : List CartItem),
        dbLookup (onAuthChange true true [Product.mk "p1" "Cake" 5 none] (some "u1")
          (CartState.mk none [CartItem.mk "p1" "Cake" 5 2 none]
            [CartRow.mk "u1" "p1" 9, CartRow.mk "u1" "p2" 7, CartRow.mk "u2" "p1" 3])).1.db
          "u1" it.id = some it.quantity) ∧
      (∀ u2 p2 : String,
        (u2 ≠ "u1" ∨ ∀ it ∈ ([CartItem.mk "p1" "Cake" 5 2 none] : List CartItem), it.id ≠ p2) →
        dbLookup (onAuthChange true true [Product.mk "p1" "Cake" 5 none] (some "u1")
          (CartState.mk none [CartItem.mk "p1" "Cake" 5 2 none]
            [CartRow.mk "u1" "p1" 9, CartRow.mk "u1" "p2" 7, CartRow.mk "u2" "p1" 3])).1.db u2 p2 =
          dbLookup [CartRow.mk "u1" "p1" 9, CartRow.mk "u1" "p2" 7, CartRow.mk "u2" "p1" 3] u2 p2) ∧
      (onAuthChange true true [Product.mk "p1" "Cake" 5 none] (some "u1")
          (CartState.mk none [CartItem.mk "p1" "Cake" 5 2 none]
            [CartRow.mk "u1" "p1" 9, CartRow.mk "u1" "p2" 7, CartRow.mk "u2" "p1" 3])).1.items =
        fetchItems [Product.mk "p1" "Cake" 5 none]
          (onAuthChange true true [Product.mk "p1" "Cake" 5 none] (some "u1")
            (CartState.mk none [CartItem.mk "p1" "Cake" 5 2 none]
              [CartRow.mk "u1" "p1" 9, CartRow.mk "u1" "p2" 7, CartRow.mk "u2" "p1" 3])).1.db "u1") :=
  ⟨rfl, by decide, by decide, by decide,
    merge_overwrite_preserve_refetch [Product.mk "p1" "Cake" 5 none]
      (CartState.mk none [CartItem.mk "p1" "Cake" 5 2 none]
        [CartRow.mk "u1" "p1" 9, CartRow.mk "u1" "p2" 7, CartRow.mk "u2" "p1" 3])
      "u1" rfl (by decide) (by decide) (by decide)⟩

/-- C5: the loading flag of the Session Store is true from provider mount until the
first authentication-change notification is fully processed, becomes false at
that point, and never becomes true again for any subsequent notification. -/
theorem auth_loading_initial_only :
    initAuthState.loading = true ∧
      ∀ (s : AuthState) (ns : List AuthNotif), ns ≠ [] → (runNotifs ns s).loading = false := by
  refine ⟨rfl, ?_⟩
  intro s ns hns
  cases ns with
  | nil => exact absurd rfl hns
  | cons n t =>
    rw [runNotifs_cons]
    exact runNotifs_loading_false t (onAuthNotify n s) rfl

/-- Witness for C5 at a concrete sign-out notification. -/
theorem auth_loading_initial_only_witness :
    ([AuthNotif.mk none true none] ≠ ([] : List AuthNotif)) ∧
      (runNotifs [AuthNotif.mk none true none] initAuthState).loading = false :=
  ⟨by decide, auth_loading_initial_only.2 initAuthState [AuthNotif.mk none true none] (by decide)⟩

/-- C6: signOut only requests backend session termination and leaves the
Session Store state (user, session, role, loading) unchanged; the local state
is cleared by the subsequent session-absent notification. -/
theorem signOut_frame (s : AuthState) (n : AuthNotif) (hn : n.sess = none) :
    (signOut s).1 = s ∧ (signOut s).2 = [Ev.signOutCall] ∧
      onAuthNotify n (signOut s).1 = AuthState.mk none none none false := by
  refine ⟨rfl, rfl, ?_⟩
  unfold onAuthNotify
  rw [hn]
  rfl

/-- Witness for C6 at a concrete signed-in state. -/
theorem signOut_frame_witness :
    (AuthNotif.mk none true none).sess = none ∧
      ((signOut (AuthState.mk (some "u1") (some (Session.mk "u1")) (some "admin") false)).1 =
          AuthState.mk (some "u1") (some (Session.mk "u1")) (some "admin") false ∧
        (signOut (AuthState.mk (some "u1") (some (Session.mk "u1")) (some "admin") false)).2 =
          [Ev.signOutCall] ∧
        onAuthNotify (AuthNotif.mk none true none)
            (signOut (AuthState.mk (some "u1") (some (Session.mk "u1")) (some "admin") false)).1 =
          AuthState.mk none none none false) :=
  ⟨rfl, signOut_frame (AuthState.mk (some "u1") (some (Session.mk "u1")) (some "admin") false)
    (AuthNotif.mk none true none) rfl⟩

/-- C7: updateQuantity with a quantity ≤ 0 produces exactly the same result
(state and events) as removeItem, in both Guest and Authenticated modes. -/
theorem updateQuantity_nonpos_eq_removeItem (ok1 ok2 : Bool) (ps : List Product)
    (s : CartState) (pid : String) (q : Int) (hq : q ≤ 0) :
    updateQuantity ok1 ok2 ps s pid q = removeItem ok1 ok2 ps s pid := by
  unfold updateQuantity
  rw [if_pos hq]

/-- Witness for C7 at quantity 0 on a concrete guest state. -/
theorem updateQuantity_nonpos_eq_removeItem_witness :
    (0 : Int) ≤ 0 ∧
      updateQuantity true true [] (CartState.mk none [] []) "p1" 0 =
        removeItem true true [] (CartState.mk none [] []) "p1" :=
  ⟨by decide, updateQuantity_nonpos_eq_removeItem true true [] (CartState.mk none [] []) "p1" 0 (by decide)⟩

/-- C8: the exposed total is the fold the provider computes on every render
and always equals the sum of unitPrice × quantity over the current items. -/
theorem total_eq_sum (items : List CartItem) :
    total items = (items.map (fun i => i.price * (i.quantity : ℚ))).sum := by
  unfold total
  rw [total_foldl_add, zero_add]

/-- C9: every cart operation (addItem, removeItem, updateQuantity, clearCart,
fetch of the durable cart, merge, and the auth-transition effect) preserves
the invariant that a cart holds at most one line per productId (and the
remote table at most one row per (user, product) key). -/
theorem cart_ops_preserve_unique_productId
    (ok1 ok2 : Bool) (ps : List Product) (s : CartState) (p : ProductLite)
    (uid pid : String) (q : Int) (lc : List CartItem) (nu : Option String)
    (h : Wf s) :
    Wf (addItem ok1 ok2 ps s p).1 ∧
    Wf (removeItem ok1 ok2 ps s pid).1 ∧
    Wf (updateQuantity ok1 ok2 ps s pid q).1 ∧
    Wf (clearCart ok1 s).1 ∧
    Wf (fetchCartRun ok2 ps uid s).1 ∧
    Wf (mergeAndClearLocalCart ok1 ok2 ps s lc).1 ∧
    Wf (onAuthChange ok1 ok2 ps nu s).1 :=
  ⟨addItem_wf ok1 ok2 ps s p h, removeItem_wf ok1 ok2 ps s pid h,
    updateQuantity_wf ok1 ok2 ps s pid q h, clearCart_wf ok1 s h,
    fetchCartRun_wf ok2 ps uid s h, merge_wf ok1 ok2 ps s lc h,
    onAuthChange_wf ok1 ok2 ps nu s h⟩

/-- Witness for C9 on a concrete well-formed state. -/
theorem cart_ops_preserve_unique_productId_witness :
    Wf (CartState.mk (some "u1") [CartItem.mk "p1" "Cake" 5 2 none]
        [CartRow.mk "u1" "p1" 2, CartRow.mk "u2" "p1" 1]) ∧
      (Wf (addItem true true [Product.mk "p1" "Cake" 5 none]
          (CartState.mk (some "u1") [CartItem.mk "p1" "Cake" 5 2 none]
            [CartRow.mk "u1" "p1" 2, CartRow.mk "u2" "p1" 1]) (ProductLite.mk "p2" "Pie" 3 none)).1 ∧
        Wf (removeItem true true [Product.mk "p1" "Cake" 5 none]
          (CartState.mk (some "u1") [CartItem.mk "p1" "Cake" 5 2 none]
            [CartRow.mk "u1" "p1" 2, CartRow.mk "u2" "p1" 1]) "p1").1 ∧
        Wf (updateQuantity true true [Product.mk "p1" "Cake" 5 none]
          (CartState.mk (some "u1") [CartItem.mk "p1" "Cake" 5 2 none]
            [CartRow.mk "u1" "p1" 2, CartRow.mk "u2" "p1" 1]) "p1" 3).1 ∧
        Wf (clearCart true
          (CartState.mk (some "u1") [CartItem.mk "p1" "Cake" 5 2 none]
            [CartRow.mk "u1" "p1" 2, CartRow.mk "u2" "p1" 1])).1 ∧
        Wf (fetchCartRun true [Product.mk "p1" "Cake" 5 none] "u1"
          (CartState.mk (some "u1") [CartItem.mk "p1" "Cake" 5 2 none]
            [CartRow.mk "u1" "p1" 2, CartRow.mk "u2" "p1" 1])).1 ∧
        Wf (mergeAndClearLocalCart true true [Product.mk "p1" "Cake" 5 none]
          (CartState.mk (some "u1") [CartItem.mk "p1" "Cake" 5 2 none]
            [CartRow.mk "u1" "p1" 2, CartRow.mk "u2" "p1" 1]) [CartItem.mk "p3" "Bun" 2 4 none]).1 ∧
        Wf (onAuthChange true true [Product.mk "p1" "Cake" 5 none] (some "u1")
          (CartState.mk (some "u1") [CartItem.mk "p1" "Cake" 5 2 none]
            [CartRow.mk "u1" "p1" 2, CartRow.mk "u2" "p1" 1])).1) :=
  ⟨by decide, cart_ops_preserve_unique_productId true true [Product.mk "p1" "Cake" 5 none]
    (CartState.mk (some "u1") [CartItem.mk "p1" "Cake" 5 2 none]
      [CartRow.mk "u1" "p1" 2, CartRow.mk "u2" "p1" 1])
    (ProductLite.mk "p2" "Pie" 3 none) "u1" "p1" 3 [CartItem.mk "p3" "Bun" 2 4 none]
    (some "u1") (by decide)⟩

end SweetAura
